import Mathlib

/-!
Verification development for the rar-hunter repository.

The Go sources are shallowly embedded: pure data transformations become Lean
functions; the effects of external processes (pipe creation, process start,
output read, wait) are supplied by an explicit outcome oracle; Go `error`
values are modelled by their message string, with `none` standing for `nil`.
Go panics in fallible code are modelled by `Option.none` results.
-/

namespace RarHunter

/-- A Go `error` value: `none` is Go's `nil`, `some msg` an error with message `msg`. -/
abbrev GoErr := Option String

namespace Rary

/-- `rary.Unrar`: one extraction target — archive file name plus working directory. -/
structure Unrar where
  filename : String
  wd : String
deriving DecidableEq, Repr

/-- The anonymous result struct sent on `resultCh` inside `rary.DoAll`:
`{src string; data string; err error}`. -/
structure RunResult where
  src : String
  data : String
  err : GoErr
deriving DecidableEq, Repr

/-- `rFn` in `rary.DoAll`: builds a result, prefixing the captured bytes with
`"data: "` (`"data: " + string(data)`; `string(nil)` is `""`). -/
def rFn (src : String) (data : String) (err : GoErr) : RunResult :=
  { src := src, data := "data: " ++ data, err := err }

/-- Oracle for the external-process steps performed by the per-target goroutine in
`rary.DoAll`: which of pipe creation (`pipeReader`), `cmd.Start`, the combined-output
`io.ReadAll`, and `cmd.Wait` fails, and with what data.
  * `pipeFail msg` — `pipeReader` returns an error `msg`.
  * `startFail outData msg` — `cmd.Start` fails with `msg`; `io.ReadAll` on the
    unstarted pipes yields `outData`.
  * `readFail msg readData waitErr` — `io.ReadAll` fails with a non-EOF error `msg`
    after returning partial bytes `readData`; `cmd.Wait` then returns `waitErr`.
  * `ran outData waitErr` — the read succeeds with `outData`; `cmd.Wait` returns
    `waitErr` (`none` for exit status 0, `some` for a non-zero exit). -/
inductive ExecOutcome where
  | pipeFail (msg : String)
  | startFail (outData : String) (msg : String)
  | readFail (msg : String) (readData : String) (waitErr : GoErr)
  | ran (outData : String) (waitErr : GoErr)
deriving DecidableEq, Repr

/-- The body of the goroutine spawned per target in `rary.DoAll` (part_000, lines
212–233), returning the list of results it sends on `resultCh`, in send order.
Note the read-failure branch of the source has no `return` after its send: the
goroutine falls through to `cmd.Wait()` and sends a second result. -/
def runTarget (t : Unrar) (o : ExecOutcome) : List RunResult :=
  match o with
  | .pipeFail msg => [rFn t.filename "" (some ("stdout pipe: " ++ msg))]
  | .startFail outData msg => [rFn t.filename outData (some msg)]
  | .readFail msg readData waitErr =>
      [rFn t.filename "" (some ("out read: " ++ msg)),
       rFn t.filename readData waitErr]
  | .ran outData waitErr => [rFn t.filename outData waitErr]

/-- The collector's error for one failed result:
`fmt.Errorf("[%s] did not complete successfully:  %s", r.src, r.err)`. -/
def resultError (r : RunResult) : GoErr :=
  r.err.map (fun e => "[" ++ r.src ++ "] did not complete successfully:  " ++ e)

/-- The collector loop of `rary.DoAll`: appends one entry to `errors` per received
result whose `err` is non-nil. -/
def collectErrors (results : List RunResult) : List String :=
  results.filterMap resultError

/-- `content` accumulation in `rary.DoAll`: each error's text followed by a newline. -/
def errorContent (errs : List String) : String :=
  errs.foldl (fun content e => content ++ e ++ "\n") ""

/-- The aggregate error returned by `rary.DoAll`:
`fmt.Errorf("encountered %d errors\n%s\n", len(targets), content)` when any error
was collected, `nil` otherwise. The count argument in the source is
`len(targets)`, not `len(errors)`. -/
def aggregateError (targets : List Unrar) (errs : List String) : GoErr :=
  if errs.length > 0 then
    some ("encountered " ++ toString targets.length ++ " errors\n" ++
      errorContent errs ++ "\n")
  else none

/-- `rary.DoAll` end to end: fan out one goroutine per target (its sends given by
`runTarget` under the outcome oracle), collect exactly `len(targets)` results
(the collector counts down from `len(targets)`; any result sent beyond that is
never received), and build the aggregate error. -/
def DoAll (targets : List Unrar) (outcomes : List ExecOutcome) : GoErr :=
  let results := ((targets.zip outcomes).map (fun p => runTarget p.1 p.2)).flatten
  let received := results.take targets.length
  aggregateError targets (collectErrors received)

/-- `rary.SFVFile`: the parsed manifest. The Go `map[string]string` is embedded as
an association list with distinct keys, built by `mapSet` below (assignment to a
present key overwrites, to an absent key inserts). -/
structure SFVFile where
  items : List (String × String)

/-- `rary.DirSnapshot`: a directory root plus the set of base file names found
under it; the Go `map[string]interface{}` used as a set is embedded as the list
of its keys. -/
structure DirSnapshot where
  root : String
  files : List String

/-- `rary.anyMissing` (part_000, lines 108–117): iterate the manifest's keys and
collect those absent from the directory snapshot's file set. -/
def anyMissing (sfv : SFVFile) (dir : DirSnapshot) : List String :=
  (sfv.items.map Prod.fst).filter (fun f => !(dir.files.contains f))

/-- The byte test performed by Go's `unicode.IsSpace` on the ASCII range:
space, `\t`, `\n`, vertical tab, form feed, `\r`. (`unicode.IsSpace` also accepts
some non-ASCII code points; the manifests in question are ASCII.) -/
def isGoSpace (c : Char) : Bool :=
  c = ' ' || c = '\t' || c = '\n' || c = Char.ofNat 0x0B || c = Char.ofNat 0x0C ||
    c = '\r'

/-- `strings.TrimSpace` on a character list: drop leading and trailing space
characters. -/
def trimSpace (l : List Char) : List Char :=
  ((l.dropWhile isGoSpace).reverse.dropWhile isGoSpace).reverse

/-- `strings.Split(s, sep)` for a one-character separator: the substrings between
consecutive separators; `Split("", sep)` is `[""]`. -/
def splitChar (sep : Char) : List Char → List (List Char)
  | [] => [[]]
  | c :: cs =>
    if c = sep then [] :: splitChar sep cs
    else
      match splitChar sep cs with
      | [] => [[c]]
      | h :: t => (c :: h) :: t

/-- Go map assignment `m[k] = v` on the association-list embedding: overwrite the
binding of `k` if present, else append it. -/
def mapSet : List (List Char × List Char) → List Char → List Char →
    List (List Char × List Char)
  | [], k, v => [(k, v)]
  | (k', v') :: rest, k, v =>
    if k' = k then (k, v) :: rest else (k', v') :: mapSet rest k v

/-- `rary.parseSFV` (part_000, lines 84–106) from the file's contents onward (the
`os.Open`/`io.ReadAll` step is outside the embedding): trim the whole text, split
it into lines on `\n`, split each line on a single space, and assign
`items[parts[0]] = parts[1]`. A line whose split has fewer than two parts makes
the Go code panic with an index-out-of-range on `parts[1]`; the panic is
modelled as `none`. -/
def parseSFV (data : List Char) : Option (List (List Char × List Char)) :=
  let content := trimSpace data
  (splitChar '\n' content).foldl
    (fun acc line =>
      match acc with
      | none => none
      | some m =>
        match splitChar ' ' line with
        | p0 :: p1 :: _ => some (mapSet m p0 p1)
        | _ => none)
    (some [])

end Rary

namespace EventBus

/-!
The event bus (`eventbus/core.go`) is embedded with event kinds drawn from an
arbitrary type `κ` with decidable equality (standing for `reflect.Type`) and a
family `V : κ → Type` of payload types, so a Go `any` value is a kind paired
with a payload of that kind's type. The subscriber map, a `map[reflect.Type][]*Subscriber`
guarded by `bus.mu`, is embedded as a total function from kinds to subscriber
lists (absent keys read as the empty list, as in Go). The concurrency is
sequentialized: each exported operation is a function on the bus state, and
`rand.Int()` inside `Subscribe` is an oracle argument.
-/

/-- A Go `any` event value: its dynamic type `ty` (the `reflect.TypeOf` result)
together with the payload. -/
structure AnyVal (κ : Type) (V : κ → Type) where
  ty : κ
  val : V ty

/-- `eventbus.Subscriber`: id, event type, and the wrapping handler stored by
`Subscribe` (the owning-bus back-reference carries no state and is dropped). -/
structure Subscriber (κ : Type) (V : κ → Type) where
  id : ℕ
  eventType : κ
  handler : AnyVal κ V → GoErr

/-- The subscriber registry `map[reflect.Type][]*Subscriber`. -/
abbrev Registry (κ : Type) (V : κ → Type) := κ → List (Subscriber κ V)

variable {κ : Type} [DecidableEq κ] {V : κ → Type}

/-- The registry of a freshly constructed bus (`New`): an empty map. -/
def emptyRegistry : Registry κ V := fun _ => []

/-- `EventBus.getSubscribers`: read the subscriber list for a type under `mu` and
return `slices.Clone` of it. In the value semantics of the embedding the
returned list is itself the snapshot: later registry updates build new lists
and cannot alter it. -/
def getSubscribers (reg : Registry κ V) (t : κ) : List (Subscriber κ V) :=
  reg t

/-- The registry update performed at the end of `eventbus.Subscribe`:
`bus.subscribers[eventType] = append(items, &sub)`. -/
def subscribeSub (reg : Registry κ V) (s : Subscriber κ V) : Registry κ V :=
  fun t => if t = s.eventType then reg t ++ [s] else reg t

/-- The Go type assertion `event.(T)`: succeeds exactly when the dynamic type is
`t`. -/
def typeAssert (t : κ) (e : AnyVal κ V) : Option (V t) :=
  if h : e.ty = t then some (h ▸ e.val) else none

/-- The wrapping handler built by `eventbus.Subscribe`:
`value, ok := event.(T); if ok { return cb(ctx, &value) }; return nil`. -/
def mkHandler (t : κ) (cb : V t → GoErr) : AnyVal κ V → GoErr :=
  fun e =>
    match typeAssert t e with
    | some v => cb v
    | none => none

/-- `eventbus.Subscribe` (core.go, lines 186–208): draw an id from `rand.Int()`
(the `randId` oracle argument), build the subscriber with the wrapping handler,
and append it to the registry; returns the new registry and the subscription
handle. -/
def Subscribe (reg : Registry κ V) (randId : ℕ) (t : κ) (cb : V t → GoErr) :
    Registry κ V × Subscriber κ V :=
  let s : Subscriber κ V := ⟨randId, t, mkHandler t cb⟩
  (subscribeSub reg s, s)

/-- `eventbus.Unsubscribe` (and `Subscriber.Close`): take the subscriber list for
the subscription's type and delete every entry whose id equals the
subscription's id (`slices.DeleteFunc`), writing the result back. -/
def Unsubscribe (reg : Registry κ V) (sub : Subscriber κ V) : Registry κ V :=
  fun t =>
    if t = sub.eventType then
      (getSubscribers reg sub.eventType).filter (fun v => v.id != sub.id)
    else reg t

/-- `errors.Join` restricted to two arguments as used in `handleJob`: `nil`s are
dropped; two non-nil errors concatenate their messages with a newline. -/
def errJoin (a b : GoErr) : GoErr :=
  match a, b with
  | none, b => b
  | some x, none => some x
  | some x, some y => some (x ++ "\n" ++ y)

/-- The message of `ctx.Err()` after cancellation. -/
def ctxCanceledErr : String := "context canceled"

/-- The subscriber loop of `eventWorker.handleJob` (core.go, lines 60–68): walk
the snapshot accumulating `err = errors.Join(err, otherErr)`; if the worker
context is cancelled, return `ctx.Err()` immediately, skipping the remaining
subscribers. `inv` accumulates the ids of the subscribers whose handlers were
invoked, in invocation order. -/
def handleJobLoop (cancelled : Bool) (e : AnyVal κ V) :
    List (Subscriber κ V) → GoErr → List ℕ → List ℕ × GoErr
  | [], acc, inv => (inv.reverse, acc)
  | s :: rest, acc, inv =>
    if cancelled then (inv.reverse, some ctxCanceledErr)
    else handleJobLoop cancelled e rest (errJoin acc (s.handler e)) (s.id :: inv)

/-- `eventWorker.handleJob` (core.go, lines 52–70): snapshot the registry for the
job's event type via `getSubscribers`, then run the subscriber loop. Returns the
ids of the invoked handlers and the job's aggregate error. -/
def handleJob (cancelled : Bool) (reg : Registry κ V) (e : AnyVal κ V) :
    List ℕ × GoErr :=
  handleJobLoop cancelled e (getSubscribers reg e.ty) none []

/-- A registry mutation racing with a dispatch: a `Subscribe` or an
`Unsubscribe`. -/
inductive RegOp (κ : Type) (V : κ → Type) where
  | sub (s : Subscriber κ V)
  | unsub (s : Subscriber κ V)

/-- Apply one racing registry mutation. -/
def applyOp (reg : Registry κ V) : RegOp κ V → Registry κ V
  | .sub s => subscribeSub reg s
  | .unsub s => Unsubscribe reg s

/-- One dispatch as the worker performs it, with the registry mutations `ops`
performed by other callers while the dispatch is in flight: the worker snapshots
the registry at dispatch start and runs the handler loop on that snapshot, while
the registry itself evolves under `ops`. Returns the dispatch outcome (invoked
ids, aggregate error) and the final registry. -/
def dispatchDuring (reg : Registry κ V) (e : AnyVal κ V) (cancelled : Bool)
    (ops : List (RegOp κ V)) : (List ℕ × GoErr) × Registry κ V :=
  let snap := getSubscribers reg e.ty
  (handleJobLoop cancelled e snap none [], ops.foldl applyOp reg)

/-- A sequence of `Subscribe` calls on one bus: the `k`-th call draws `rng k`
from `rand.Int()`. Returns the final registry and the subscription handles in
call order. -/
def subscribeAll (rng : ℕ → ℕ) :
    ℕ → Registry κ V → List ((t : κ) × (V t → GoErr)) →
    Registry κ V × List (Subscriber κ V)
  | _, reg, [] => (reg, [])
  | k, reg, c :: rest =>
    let p := Subscribe reg (rng k) c.1 c.2
    let q := subscribeAll rng (k + 1) p.1 rest
    (q.1, p.2 :: q.2)

/-- `eventbus.EventBus` state: the registry, the `running` flag, whether the
bus's context has been cancelled, whether the job queue channel is open, the
queued jobs, and the log of aggregate-error messages printed by the worker
(`fmt.Printf` in `eventWorker.run`). The worker pool and wait group are
represented by `workerStep` acting on this state. -/
structure BusState (κ : Type) (V : κ → Type) where
  subscribers : Registry κ V
  running : Bool
  cancelled : Bool
  queueOpen : Bool
  jobQueue : List (AnyVal κ V)
  log : List String

/-- `eventbus.New`: an unstarted bus with an empty registry; no queue allocated. -/
def New : BusState κ V :=
  { subscribers := emptyRegistry, running := false, cancelled := false,
    queueOpen := false, jobQueue := [], log := [] }

/-- `EventBus.Start` (core.go, lines 114–133): no-op if already running,
otherwise allocate the job queue, spawn the worker, and mark running. -/
def Start (st : BusState κ V) : BusState κ V :=
  if st.running then st
  else { st with jobQueue := [], queueOpen := true, running := true }

/-- `eventbus.Publish` (core.go, lines 210–229): if the bus is not running,
return silently; if the bus context is cancelled, return silently; otherwise
enqueue a job for the event's dynamic type. (The enqueue is offloaded to a
goroutine in the source so the caller never blocks on the bounded channel; the
sequential embedding performs it directly.) `Publish` returns only the new bus
state — it has no error result. -/
def Publish (st : BusState κ V) (e : AnyVal κ V) : BusState κ V :=
  if st.running = false then st
  else if st.cancelled then st
  else { st with jobQueue := st.jobQueue ++ [e] }

/-- `EventBus.Stop` (core.go, lines 143–172): if never started (or already
stopped), return immediately with no state change. Otherwise cancel the bus
context, wait for worker quiescence at most `timeout` (the `select` on the
wait-group channel against `time.After(timeout)`; `quiesce` is the instant the
workers would quiesce, `none` if never), then close the job queue and mark the
bus not running regardless of which case fired. Returns the new state and the
time spent waiting. -/
def Stop (st : BusState κ V) (timeout : ℕ) (quiesce : Option ℕ) :
    BusState κ V × ℕ :=
  if st.running = false then (st, 0)
  else
    let elapsed :=
      match quiesce with
      | some q => min q timeout
      | none => timeout
    ({ st with cancelled := true, queueOpen := false, running := false }, elapsed)

/-- One iteration of `eventWorker.run` (core.go, lines 37–50): if the context is
cancelled the worker returns; otherwise it takes the next job, runs `handleJob`,
and if the aggregate error is non-nil prints it (appends it to the log). The
error goes nowhere else. -/
def workerStep (st : BusState κ V) : BusState κ V :=
  if st.cancelled then st
  else
    match st.jobQueue with
    | [] => st
    | j :: rest =>
      { st with jobQueue := rest,
                log := st.log ++ (handleJob false st.subscribers j).2.toList }

/-- A concrete subscriber over kinds `Bool`, used by witnesses. -/
def subW : Subscriber Bool (fun _ => ℕ) :=
  ⟨7, true, mkHandler true (fun _ => none)⟩

/-- A concrete one-subscriber registry, used by witnesses. -/
def regW : Registry Bool (fun _ => ℕ) :=
  subscribeSub emptyRegistry subW

/-- A concrete typed callback, used by witnesses. -/
def cbW : ℕ → GoErr := fun n => some (Nat.repr n)

/-- A concrete started bus with one queued job, used by witnesses. -/
def stW : BusState Bool (fun _ => ℕ) :=
  Publish (Start New) ⟨true, 0⟩

end EventBus

end RarHunter

namespace RarHunter.Rary

/-- C1: the claim states every Target yields exactly one result on the results
channel, never more, regardless of launch, read, or wait failure. The code
violates it: in the output-read-failure branch the goroutine sends a result and
then, lacking a `return`, falls through to `cmd.Wait()` and sends a second one.
This theorem evaluates the embedded goroutine body: two results for a target
whose combined-output read fails, and exactly one in every other branch. -/
theorem runTarget_result_count :
    (runTarget ⟨"a.rar", "/w"⟩ (.readFail "boom" "" none)).length = 2 ∧
    (∀ f w msg outData waitErr,
      (runTarget ⟨f, w⟩ (.pipeFail msg)).length = 1 ∧
      (runTarget ⟨f, w⟩ (.startFail outData msg)).length = 1 ∧
      (runTarget ⟨f, w⟩ (.ran outData waitErr)).length = 1) :=
  ⟨rfl, fun _ _ _ _ _ => ⟨rfl, rfl, rfl⟩⟩

/-- C2: the claim states the aggregate error's reported failure count equals the
number of failed targets. The code passes `len(targets)` to
`"encountered %d errors"`: with two targets of which exactly one fails, the
message reports 2 while the number of collected failures is 1. -/
theorem doAll_error_count_mismatch :
    DoAll [⟨"a.rar", "/w"⟩, ⟨"b.rar", "/w"⟩]
        [.ran "" none, .ran "" (some "exit status 1")] =
      some ("encountered 2 errors\n[b.rar] did not complete successfully:  " ++
        "exit status 1\n\n") ∧
    (collectErrors ((([(⟨"a.rar", "/w"⟩ : Unrar), ⟨"b.rar", "/w"⟩].zip
        [ExecOutcome.ran "" none, .ran "" (some "exit status 1")]).map
        (fun p => runTarget p.1 p.2)).flatten)).length = 1 := by
  constructor
  · rfl
  · rfl

/-- C8: the missing-files computation returns exactly the manifest's names minus
the directory snapshot's names: as sets, `anyMissing sfv dir` is the set
difference of the manifest keys and the directory files; when the two sets are
equal the returned list is empty; and when the manifest's keys are the
directory's files plus one extra name `b`, the result is exactly `{b}`. -/
theorem anyMissing_diff (sfv : SFVFile) (dir : DirSnapshot) :
    (anyMissing sfv dir).toFinset =
      (sfv.items.map Prod.fst).toFinset \ dir.files.toFinset ∧
    ((sfv.items.map Prod.fst).toFinset = dir.files.toFinset →
      anyMissing sfv dir = []) ∧
    (∀ b : String,
      (sfv.items.map Prod.fst).toFinset = insert b dir.files.toFinset →
      b ∉ dir.files → (anyMissing sfv dir).toFinset = {b}) := by
  have key : (anyMissing sfv dir).toFinset =
      (sfv.items.map Prod.fst).toFinset \ dir.files.toFinset := by
    ext x
    simp [anyMissing, List.mem_filter]
  refine ⟨key, ?_, ?_⟩
  · intro h
    have : (anyMissing sfv dir).toFinset = ∅ := by
      rw [key, h, Finset.sdiff_self]
    simpa [List.toFinset_eq_empty_iff] using this
  · intro b hkeys hb
    rw [key, hkeys]
    ext x
    simp only [Finset.mem_sdiff, Finset.mem_insert, Finset.mem_singleton,
      List.mem_toFinset]
    constructor
    · rintro ⟨hx | hx, hnx⟩
      · exact hx
      · exact absurd hx hnx
    · rintro rfl
      exact ⟨Or.inl rfl, hb⟩

/-- C8 witness: a manifest `{a, b}` against a directory `{a, b}` yields no missing
entries, and against a directory `{a}` yields exactly `{b}`. -/
theorem anyMissing_diff_witness :
    anyMissing ⟨[("a", "1"), ("b", "2")]⟩ ⟨"/r", ["a", "b"]⟩ = [] ∧
    (anyMissing ⟨[("a", "1"), ("b", "2")]⟩ ⟨"/r", ["a"]⟩).toFinset = {"b"} :=
  ⟨(anyMissing_diff ⟨[("a", "1"), ("b", "2")]⟩ ⟨"/r", ["a", "b"]⟩).2.1 (by decide),
   (anyMissing_diff ⟨[("a", "1"), ("b", "2")]⟩ ⟨"/r", ["a"]⟩).2.2 "b"
     (by decide) (by decide)⟩

/-- C9: the claim states `parseSFV` accepts `<filename><whitespace><checksum>`
lines for every kind and amount of whitespace. The code splits each line on a
single space only: a tab-separated line `a\tb` produces one part and the Go code
panics indexing `parts[1]` (modelled as `none`), and a double-space line
`a  b` binds filename `a` to the empty middle part instead of to the checksum
`b`. This theorem evaluates `parseSFV` at those two inputs. -/
theorem parseSFV_single_space_only :
    parseSFV ("a\tb".toList) = none ∧
    parseSFV ("a  b".toList) = some [("a".toList, "".toList)] := by
  exact ⟨by decide, by decide⟩

end RarHunter.Rary

namespace RarHunter.EventBus

variable {κ : Type} [DecidableEq κ] {V : κ → Type}

omit [DecidableEq κ] in
/-- The uncancelled subscriber loop invokes every subscriber of the snapshot in
order and folds their errors with `errors.Join`. -/
theorem handleJobLoop_false_eq (e : AnyVal κ V) (l : List (Subscriber κ V))
    (acc : GoErr) (inv : List ℕ) :
    handleJobLoop false e l acc inv =
      (inv.reverse ++ l.map Subscriber.id,
       l.foldl (fun a s => errJoin a (s.handler e)) acc) := by
  induction l generalizing acc inv with
  | nil => simp [handleJobLoop]
  | cons s rest ih =>
    simp [handleJobLoop, ih, List.append_assoc]

/-- C3: a dispatch operates on the registry snapshot taken at dispatch start.
First conjunct: the dispatch outcome (invoked handlers and aggregate error) is
the same whatever registry mutations race with it — later `Subscribe` or
`Unsubscribe` calls never add to or remove from an in-flight dispatch. Second:
the handlers invoked are exactly the snapshot for the job's kind, in snapshot
order. Third: a subscriber unsubscribed before the snapshot was taken is never
invoked by the dispatch. -/
theorem dispatch_snapshot_isolation (reg : Registry κ V) (e : AnyVal κ V)
    (ops ops' : List (RegOp κ V)) (s : Subscriber κ V) :
    (dispatchDuring reg e false ops).1 = (dispatchDuring reg e false ops').1 ∧
    (dispatchDuring reg e false ops).1.1 =
      (getSubscribers reg e.ty).map Subscriber.id ∧
    (s.eventType = e.ty →
      s.id ∉ (dispatchDuring (Unsubscribe reg s) e false ops).1.1) := by
  refine ⟨rfl, ?_, ?_⟩
  · simp [dispatchDuring, handleJobLoop_false_eq]
  · intro h
    simp only [dispatchDuring, handleJobLoop_false_eq, getSubscribers,
      Unsubscribe, List.reverse_nil, List.nil_append]
    rw [if_pos h.symm]
    intro hmem
    simp only [List.mem_map, List.mem_filter] at hmem
    obtain ⟨x, ⟨hx, hpred⟩, hid⟩ := hmem
    rw [hid] at hpred
    simp at hpred

/-- C3 witness: with one subscriber of id 7 for kind `true` unsubscribed before
dispatch start, a dispatch of a kind-`true` job does not invoke id 7. -/
theorem dispatch_snapshot_isolation_witness :
    subW.id ∉ (dispatchDuring (Unsubscribe regW subW) ⟨true, 0⟩ false []).1.1 :=
  (dispatch_snapshot_isolation regW ⟨true, 0⟩ [] [] subW).2.2 rfl

/-- C4 counterexample: the claim states ids returned by successive `Subscribe`
calls are always pairwise distinct. `Subscribe` takes its id from `rand.Int()`
with no uniqueness check; for the draw sequence that returns 0 twice, two
`Subscribe` calls on one bus return subscribers with the same id 0. -/
theorem subscribe_ids_can_collide :
    ¬ (((subscribeAll (V := fun _ : Bool => ℕ) (fun _ => 0) 0 emptyRegistry
        [⟨true, fun _ => none⟩, ⟨true, fun _ => none⟩]).2.map
          Subscriber.id).Nodup) := by
  have h : ((subscribeAll (V := fun _ : Bool => ℕ) (fun _ => 0) 0 emptyRegistry
      [⟨true, fun _ => none⟩, ⟨true, fun _ => none⟩]).2.map
        Subscriber.id) = [0, 0] := rfl
  rw [h]
  decide

/-- C4 amended: each `Subscribe` call's id is exactly the next `rand.Int()` draw,
so the ids of a call sequence are pairwise distinct whenever the draws consumed
by those calls are pairwise distinct (uniqueness is inherited from the random
source, not enforced by the bus). -/
theorem subscribe_ids_match_rng (rng : ℕ → ℕ) (k : ℕ) (reg : Registry κ V)
    (calls : List ((t : κ) × (V t → GoErr))) :
    ((subscribeAll rng k reg calls).2.map Subscriber.id) =
      (List.range calls.length).map (fun i => rng (k + i)) ∧
    ((∀ i j, i < calls.length → j < calls.length → i ≠ j →
        rng (k + i) ≠ rng (k + j)) →
      ((subscribeAll rng k reg calls).2.map Subscriber.id).Nodup) := by
  have main : ∀ (calls : List ((t : κ) × (V t → GoErr))) (k : ℕ)
      (reg : Registry κ V),
      ((subscribeAll rng k reg calls).2.map Subscriber.id) =
        (List.range calls.length).map (fun i => rng (k + i)) := by
    intro calls
    induction calls with
    | nil => intro k reg; rfl
    | cons c rest ih =>
      intro k reg
      simp only [subscribeAll, List.map_cons, List.length_cons,
        List.range_succ_eq_map, List.map_map]
      rw [ih]
      have h1 : (Subscribe reg (rng k) c.fst c.snd).2.id = rng (k + 0) := by
        show rng k = rng (k + 0)
        simp
      have h2 : List.map (fun i => rng (k + 1 + i)) (List.range rest.length) =
          List.map ((fun i => rng (k + i)) ∘ Nat.succ) (List.range rest.length) := by
        apply List.map_congr_left
        intro i _
        simp only [Function.comp_apply]
        show rng (k + 1 + i) = rng (k + (i + 1))
        congr 1
        omega
      rw [h1, h2]
  refine ⟨main calls k reg, ?_⟩
  intro hinj
  rw [main calls k reg]
  refine List.Nodup.map_on ?_ (List.nodup_range _)
  intro i hi j hj hf
  by_contra hne
  exact hinj i j (List.mem_range.mp hi) (List.mem_range.mp hj) hne hf

/-- C4 amended witness: two calls drawing the distinct values 0 and 1 yield
distinct ids. -/
theorem subscribe_ids_match_rng_witness :
    ((subscribeAll (V := fun _ : Bool => ℕ) (fun i => i) 0 emptyRegistry
      [⟨true, fun _ => none⟩, ⟨false, fun _ => none⟩]).2.map
        Subscriber.id).Nodup :=
  (subscribe_ids_match_rng (fun i => i) 0 emptyRegistry
      [⟨true, fun _ => none⟩, ⟨false, fun _ => none⟩]).2
    (by intro i j _ _ h; simpa using fun hc => h (by omega))

/-- C5: lifecycle misuse is a safe no-op. `Publish` on a bus that is not running
(never started, or stopped) leaves the state unchanged — nothing is enqueued, so
no handler ever runs for that event; `Stop` on a not-running bus returns at once
with no state change and no waiting; `Publish` right after any `Stop` is likewise
a no-op; and unsubscribing the same subscription twice leaves the registry
exactly as one unsubscribe does. All the embedded operations are total
functions: no case panics. -/
theorem lifecycle_misuse_safe (st : BusState κ V) (e : AnyVal κ V)
    (timeout : ℕ) (q : Option ℕ) (reg : Registry κ V) (sub : Subscriber κ V) :
    (st.running = false → Publish st e = st) ∧
    (st.running = false → Stop st timeout q = (st, 0)) ∧
    Publish (Stop st timeout q).1 e = (Stop st timeout q).1 ∧
    Unsubscribe (Unsubscribe reg sub) sub = Unsubscribe reg sub := by
  refine ⟨?_, ?_, ?_, ?_⟩
  · intro h; simp [Publish, h]
  · intro h; simp [Stop, h]
  · by_cases h : st.running
    · simp [Stop, Publish, h]
    · simp only [Bool.not_eq_true] at h
      simp [Stop, Publish, h]
  · funext t
    by_cases h : t = sub.eventType
    · subst h
      simp [Unsubscribe, getSubscribers, List.filter_filter]
    · simp [Unsubscribe, getSubscribers, h]

/-- C5 witness: on the freshly constructed (never started) bus, `Publish` and
`Stop` are no-ops. -/
theorem lifecycle_misuse_safe_witness :
    Publish (V := fun _ : Bool => ℕ) New ⟨true, 0⟩ = New ∧
    Stop (V := fun _ : Bool => ℕ) New 5 none = (New, 0) :=
  ⟨(lifecycle_misuse_safe New ⟨true, 0⟩ 5 none emptyRegistry subW).1 rfl,
   (lifecycle_misuse_safe New ⟨true, 0⟩ 5 none emptyRegistry subW).2.1 rfl⟩

omit [DecidableEq κ] in
/-- C6: per job, the errors returned by the snapshotted handlers are folded into
one aggregate with `errors.Join`; the worker appends a non-nil aggregate to the
bus's log and nothing else; and `Publish` neither returns nor records any
error — its entire caller-visible effect is either nothing or enqueuing the
job, independent of what any handler later returns. -/
theorem handler_errors_aggregated (reg : Registry κ V) (e : AnyVal κ V)
    (st : BusState κ V) (j : AnyVal κ V) (rest : List (AnyVal κ V)) :
    (handleJob false reg e).2 =
      (getSubscribers reg e.ty).foldl (fun acc s => errJoin acc (s.handler e))
        none ∧
    (st.cancelled = false → st.jobQueue = j :: rest →
      workerStep st = { st with jobQueue := rest, log := st.log ++ (handleJob false st.subscribers j).2.toList }) ∧
    (∀ (st' : BusState κ V) (e' : AnyVal κ V),
      (Publish st' e').log = st'.log ∧
      (Publish st' e' = st' ∨
       Publish st' e' = { st' with jobQueue := st'.jobQueue ++ [e'] })) := by
  refine ⟨?_, ?_, ?_⟩
  · simp [handleJob, handleJobLoop_false_eq]
  · intro h1 h2
    simp [workerStep, h1, h2]
  · intro st' e'
    constructor
    · unfold Publish
      split
      · rfl
      · split <;> rfl
    · unfold Publish
      split
      · exact Or.inl rfl
      · split
        · exact Or.inl rfl
        · exact Or.inr rfl

/-- C6 witness: on a started bus with one queued job, the worker consumes the
job and appends its aggregate error (if any) to the log. -/
theorem handler_errors_aggregated_witness :
    workerStep stW = { stW with jobQueue := [], log := stW.log ++ (handleJob false stW.subscribers ⟨true, 0⟩).2.toList } :=
  (handler_errors_aggregated (V := fun _ : Bool => ℕ) emptyRegistry ⟨true, 0⟩
    stW ⟨true, 0⟩ []).2.1 rfl rfl

omit [DecidableEq κ] in
/-- C7: `Stop` always returns, waiting at most `timeout` for worker quiescence —
whether the workers quiesce at some instant or never (`quiesce = none`) — and
the resulting bus is marked not running in every case. -/
theorem stop_bounded (st : BusState κ V) (timeout : ℕ) (q : Option ℕ) :
    (Stop st timeout q).2 ≤ timeout ∧ (Stop st timeout q).1.running = false := by
  by_cases h : st.running
  · cases q with
    | none => simp [Stop, h]
    | some n => simp [Stop, h, min_le_right]
  · simp only [Bool.not_eq_true] at h
    simp [Stop, h]

/-- C10: the wrapping handler stored by `Subscribe` invokes the typed callback
exactly when the published payload's dynamic type is the subscribed type, and
for any other dynamic type it returns `nil` without invoking the callback (it
returns the same value whatever the callback is), so a typed callback never
observes a payload of the wrong type. -/
theorem typed_handler_safety (t : κ) (cb : V t → GoErr) (e : AnyVal κ V) :
    (∀ h : e.ty = t, mkHandler t cb e = cb (h ▸ e.val)) ∧
    (e.ty ≠ t →
      mkHandler t cb e = none ∧
      ∀ cb' : V t → GoErr, mkHandler t cb e = mkHandler t cb' e) := by
  constructor
  · intro h
    subst h
    simp [mkHandler, typeAssert]
  · intro hne
    refine ⟨?_, ?_⟩
    · simp [mkHandler, typeAssert, hne]
    · intro cb'
      simp [mkHandler, typeAssert, hne]

/-- C10 witness: a kind-`true` handler receives the payload of a kind-`true`
event and returns `nil` on a kind-`false` event. -/
theorem typed_handler_safety_witness :
    mkHandler (V := fun _ : Bool => ℕ) true cbW ⟨true, 5⟩ = cbW 5 ∧
    mkHandler (V := fun _ : Bool => ℕ) true cbW ⟨false, 5⟩ = none :=
  ⟨(typed_handler_safety (V := fun _ : Bool => ℕ) true cbW ⟨true, 5⟩).1 rfl,
   ((typed_handler_safety (V := fun _ : Bool => ℕ) true cbW ⟨false, 5⟩).2
     (by decide)).1⟩

end RarHunter.EventBus
